import Mathlib

/-!
Verification of the OpenBook virtualized chat-transcript subsystem:
the debounced localStorage persistence layer (`useDebouncedLocalStorage`,
`LocalStorageQueue`), the `MessageHeightCache`, and the virtual message
list (`VirtualMessageList`) with its scroll-position tracking.

The TypeScript sources are embedded shallowly: timers become explicit
event traces, the browser event loop becomes explicit orderings of
those traces, JavaScript `Map`s become association lists, and the
falsy-`||` idiom on numbers is translated as an explicit test against 0.
-/

/-! ## Debounced localStorage writes (`useDebouncedLocalStorage`)

The hook keeps one pending `setTimeout` per hook instance (hence per
key).  Every state update clears the previous timeout and schedules a
write of the latest value `delay` ms later.  We model a run of the hook
by the trace of update events `(time, payload)` in strictly increasing
time order; a scheduled write survives exactly when the next update
arrives no earlier than `delay` ms later (otherwise `clearTimeout`
cancels it), and the final update's timer always fires. -/

/-- The localStorage writes performed by the debounced hook on an event
trace: the write scheduled at event `(t, p)` fires at `t + delay` with
payload `p` unless the next event arrives strictly before `t + delay`,
which is exactly when `clearTimeout` cancels it. -/
def debouncedWrites {α : Type} (delay : Nat) : List (Nat × α) → List (Nat × α)
  | [] => []
  | (t, p) :: rest =>
    match rest with
    | [] => [(t + delay, p)]
    | (t2, _) :: _ =>
      if t2 < t + delay then debouncedWrites delay rest
      else (t + delay, p) :: debouncedWrites delay rest

/-- Every event of the trace arrives strictly less than `delay` after the
previous one. -/
def gapsLt {α : Type} (delay : Nat) : List (Nat × α) → Bool
  | [] => true
  | [_] => true
  | (t1, _) :: (t2, p2) :: rest =>
    decide (t2 < t1 + delay) && gapsLt delay ((t2, p2) :: rest)

/-- The last event of a nonempty trace, given as head plus tail. -/
def lastEvent {α : Type} (e : Nat × α) : List (Nat × α) → Nat × α
  | [] => e
  | e2 :: rest => lastEvent e2 rest

/-- A trace of twelve updates to one key, 500 ms apart (all gaps below the
1000 ms debounce), spanning 5500 ms. -/
def hotKeyTrace : List (Nat × Nat) :=
  [(0, 1), (500, 2), (1000, 3), (1500, 4), (2000, 5), (2500, 6),
   (3000, 7), (3500, 8), (4000, 9), (4500, 10), (5000, 11), (5500, 12)]

/-! ## `LocalStorageQueue` (`useLocalStorageQueue.ts`) -/

/-- Write priorities of `LocalStorageQueue`. -/
inductive Priority where
  | high
  | normal
  | low
deriving DecidableEq, Repr

/-- Source: `const priorityOrder = ... high: 0, normal: 1, low: 2 ...`. -/
def priorityOrder : Priority → Nat
  | .high => 0
  | .normal => 1
  | .low => 2

/-- A `QueueItem` of `LocalStorageQueue` (`value: any` is a type
parameter). -/
structure QueueItem (α : Type) where
  key : String
  value : α
  priority : Priority
deriving DecidableEq

/-- Source `LocalStorageQueue.add`: remove any existing item with the same key,
push the new item, then sort the queue by priority (JavaScript
`Array.prototype.sort` with comparator `priorityOrder[a] -
priorityOrder[b]` is a stable ascending sort, modelled by `mergeSort`). -/
def LocalStorageQueue.add {α : Type} (queue : List (QueueItem α)) (key : String)
    (value : α) (priority : Priority) : List (QueueItem α) :=
  let filtered := queue.filter (fun item => item.key != key)
  let pushed := filtered ++ [⟨key, value, priority⟩]
  pushed.mergeSort (fun a b => decide (priorityOrder a.priority ≤ priorityOrder b.priority))

/-- Number of queue items carrying a given key. -/
def countKey {α : Type} (key : String) (queue : List (QueueItem α)) : Nat :=
  queue.countP (fun item => item.key == key)

/-- Observable outcome of one run of `LocalStorageQueue.process`:
the `localStorage.setItem` calls attempted, the ones that succeeded,
and the key on which the loop stalled (if any). -/
structure ProcessTrace (α : Type) where
  attempts : List (String × α)
  written : List (String × α)
  stalledOn : Option String
deriving DecidableEq

/-- Source `LocalStorageQueue.process`: shift items off the queue one at a time
and `await` a promise whose `requestIdleCallback` (or `setTimeout`)
callback performs `localStorage.setItem` and then `resolve()`.

When `setItem` throws (quota exceeded, serialization failure), it throws
inside the asynchronously scheduled callback, not inside the promise
executor, so the promise is never resolved nor rejected: the `await`
suspends forever, the `try/catch` around it never observes the error,
`processing` stays `true`, and no further queue item is ever attempted.
`writeSucceeds` tells which `setItem` calls succeed. -/
def LocalStorageQueue.process {α : Type} (writeSucceeds : String → α → Bool) :
    List (QueueItem α) → ProcessTrace α
  | [] => ⟨[], [], none⟩
  | item :: rest =>
    if writeSucceeds item.key item.value then
      let t := LocalStorageQueue.process writeSucceeds rest
      ⟨(item.key, item.value) :: t.attempts, (item.key, item.value) :: t.written,
       t.stalledOn⟩
    else
      ⟨[(item.key, item.value)], [], some item.key⟩

/-! ## `MessageHeightCache` (`lib/utils/messageHeightCache.ts`) -/

/-- One entry of a message's `parts` array; only its `type` tag is read. -/
structure MessagePart where
  type : String
deriving DecidableEq

/-- A chat message as read by the height cache: `id`, optional `content`
string, optional `parts` array. -/
structure Message where
  id : String
  content : Option String
  parts : Option (List MessagePart)
deriving DecidableEq

/-- The cache's `Map<string, number>`, as an association list (JavaScript
`Map.set` replaces the binding for an existing key; iteration order is
never observed by the class). -/
structure MessageHeightCache where
  cache : List (String × Int)
deriving DecidableEq

/-- Source: `private defaultHeight = 200`. -/
def defaultHeight : Int := 200

/-- Source: `get(messageId)` returns `this.cache.get(messageId) || this.defaultHeight`.
A stored `0` is falsy in JavaScript, so `||` falls through to the
default for a missing entry and for a stored `0` alike. -/
def MessageHeightCache.get (c : MessageHeightCache) (messageId : String) : Int :=
  match c.cache.lookup messageId with
  | some h => if h = 0 then defaultHeight else h
  | none => defaultHeight

/-- Source: `set(messageId, height)` performs `this.cache.set(messageId, height)` —
stores unconditionally, replacing any binding for the same id. -/
def MessageHeightCache.set (c : MessageHeightCache) (messageId : String)
    (height : Int) : MessageHeightCache :=
  ⟨(messageId, height) :: c.cache.filter (fun e => e.1 != messageId)⟩

/-- Source: `has(messageId)` returns `this.cache.has(messageId)`. -/
def MessageHeightCache.has (c : MessageHeightCache) (messageId : String) : Bool :=
  (c.cache.lookup messageId).isSome

/-- Whether the second character list occurs at the start of the first. -/
def startsWithChars : List Char → List Char → Bool
  | _, [] => true
  | [], _ :: _ => false
  | c :: cs, d :: ds => c == d && startsWithChars cs ds

/-- Whether the second character list occurs anywhere in the first. -/
def containsChars : List Char → List Char → Bool
  | [], pat => startsWithChars [] pat
  | c :: cs, pat => startsWithChars (c :: cs) pat || containsChars cs pat

/-- Source: `s.includes('```')`: the string contains a fenced code block marker
(substring search over the string's character list). -/
def includesCodeFence (s : String) : Bool :=
  containsChars s.data "```".data

/-- Source `estimate(message)`: return the cached height when present, else the
content-based estimate.  `message.content?.length || 0` and the optional
chains `content?.includes`, `parts?.some` are translated with their
undefined-is-falsy semantics. -/
def MessageHeightCache.estimate (c : MessageHeightCache) (message : Message) : Int :=
  if c.has message.id then c.get message.id
  else
    let contentLength : Nat :=
      match message.content with
      | some s => s.length
      | none => 0
    let hasCode : Bool :=
      match message.content with
      | some s => includesCodeFence s
      | none => false
    let hasImages : Bool :=
      match message.parts with
      | some ps => ps.any (fun p => p.type == "image")
      | none => false
    let e1 := if contentLength > 500 then defaultHeight + 100 else defaultHeight
    let e2 := if contentLength > 1000 then e1 + 200 else e1
    let e3 := if hasCode then e2 + 150 else e2
    if hasImages then e3 + 300 else e3

/-- The estimation policy exactly as the specification words it (base
default plus independent fixed increments), kept separate from the
source translation so the two can be compared. -/
def specContentEstimate (message : Message) : Int :=
  let contentLength : Nat :=
    match message.content with
    | some s => s.length
    | none => 0
  let hasCode : Bool :=
    match message.content with
    | some s => includesCodeFence s
    | none => false
  let hasImages : Bool :=
    match message.parts with
    | some ps => ps.any (fun p => p.type == "image")
    | none => false
  defaultHeight
    + (if contentLength > 500 then 100 else 0)
    + (if contentLength > 1000 then 200 else 0)
    + (if hasCode then 150 else 0)
    + (if hasImages then 300 else 0)

/-! ## `VirtualMessageList` windowing

The component renders a `react-window` `VariableSizeList` with
`itemCount = messages.length`, `itemSize = getRowHeight` and
`overscanCount = 5`; `isStreaming` and `currentMessageId` are passed
only to the row renderer, never to the list. -/

/-- Source: `getRowHeight(index)` returns `rowHeights.current[index] || 200` —
missing and `0` entries are falsy and fall back to the 200 default. -/
def getRowHeight (rowHeights : Nat → Option Nat) (index : Nat) : Nat :=
  match rowHeights index with
  | some h => if h = 0 then 200 else h
  | none => 200

/-- Sum of the heights of the first `i` rows (row `i`'s absolute top
offset). -/
def prefixHeights (heightOf : Nat → Nat) : Nat → Nat
  | 0 => 0
  | i + 1 => prefixHeights heightOf i + heightOf i

/-- Modelled from the spec: the windowing algorithm itself lives in the
`react-window` library, which is not part of the repository; §4.2 of the
design describes it as binary-searching the height prefix sums for "the
first index whose cumulative offset exceeds `scrollOffset`".  Because
the prefix sums are monotone, that index equals the number of indices
whose cumulative offset is still within `scrollOffset`. -/
def windowStart (itemCount : Nat) (heightOf : Nat → Nat) (scrollOffset : Nat) : Nat :=
  (List.range itemCount).countP (fun i => decide (prefixHeights heightOf (i + 1) ≤ scrollOffset))

/-- Modelled from the spec: "the last index whose cumulative offset is
below `scrollOffset + viewportHeight`" (§4.2), again via a count over
the monotone prefix sums. -/
def windowStop (itemCount : Nat) (heightOf : Nat → Nat)
    (scrollOffset viewportHeight : Nat) : Nat :=
  (List.range itemCount).countP
    (fun i => decide (prefixHeights heightOf i < scrollOffset + viewportHeight)) - 1

/-- Modelled from the spec: the visible range expanded by `overscan`
items on each side and clamped to `[0, itemCount - 1]` (§4.2). -/
def windowIndices (itemCount : Nat) (heightOf : Nat → Nat)
    (scrollOffset viewportHeight overscan : Nat) : List Nat :=
  if itemCount = 0 then []
  else
    let s := windowStart itemCount heightOf scrollOffset - overscan
    let e := min (windowStop itemCount heightOf scrollOffset viewportHeight + overscan)
      (itemCount - 1)
    List.range' s (e + 1 - s)

/-- The indices mounted by `VirtualMessageList`: the window computed from
`messages.length`, `getRowHeight` and `overscanCount = 5`.  The
`isStreaming` and `currentMessageId` props reach only the row contents,
so they take no part in the computation. -/
def mountedIndices (messages : List Message) (rowHeights : Nat → Option Nat)
    (scrollOffset viewportHeight : Nat) (isStreaming : Bool)
    (currentMessageId : Option String) : List Nat :=
  windowIndices messages.length (getRowHeight rowHeights) scrollOffset viewportHeight 5

/-- A hundred messages whose first one is still streaming. -/
def streamingMessages : List Message :=
  ⟨"stream", some "hi", none⟩ :: List.replicate 99 ⟨"other", none, none⟩

/-! ## `VirtualMessageList` scroll tracking -/

/-- Source: `totalHeight = messages.reduce((sum, _, i) => sum + getRowHeight(i), 0)`. -/
def totalHeightOf (messages : List Message) (rowHeights : Nat → Option Nat) : Int :=
  (List.range messages.length).foldl (fun sum i => sum + (getRowHeight rowHeights i : Int)) 0

/-- Source `handleScroll`: on a user scroll (`!scrollUpdateWasRequested`) set
`isNearBottom` to whether the viewport bottom is within 100 units of the
total content height (`listRef.current?.props.height || 0` is the list's
height prop, 0 when the ref is unset); a programmatic scroll leaves the
flag unchanged. -/
def handleScroll (messages : List Message) (rowHeights : Nat → Option Nat)
    (isNearBottom : Bool) (scrollOffset : Int) (listHeightProp : Option Nat)
    (scrollUpdateWasRequested : Bool) : Bool :=
  if scrollUpdateWasRequested then isNearBottom
  else
    let listHeight : Int := (listHeightProp.getD 0 : Nat)
    let distanceFromBottom := totalHeightOf messages rowHeights - (scrollOffset + listHeight)
    decide (distanceFromBottom < 100)

/-- The imperative scroll emitted by the auto-scroll effect. -/
structure ScrollCommand where
  index : Nat
  align : String
deriving DecidableEq

/-- The `useEffect` keyed on `[messages.length, isNearBottom]`:
`if (isNearBottom && messages.length > 0)
   listRef.current?.scrollToItem(messages.length - 1, 'end')`. -/
def autoScrollEffect (isNearBottom : Bool) (messagesLength : Nat) :
    Option ScrollCommand :=
  if isNearBottom && decide (0 < messagesLength) then
    some ⟨messagesLength - 1, "end"⟩
  else none

/-! ## Theorems -/

/-- On a trace whose gaps are all below the debounce delay, every timer
but the last one is cancelled: the writes collapse to a single write of
the last payload, one delay after the last event. -/
theorem debouncedWrites_of_gapsLt {α : Type} (delay t : Nat) (p : α)
    (rest : List (Nat × α)) (h : gapsLt delay ((t, p) :: rest) = true) :
    debouncedWrites delay ((t, p) :: rest) =
      [((lastEvent (t, p) rest).1 + delay, (lastEvent (t, p) rest).2)] := by
  induction rest generalizing t p with
  | nil => simp [debouncedWrites, lastEvent]
  | cons e2 rest ih =>
    obtain ⟨t2, p2⟩ := e2
    simp only [gapsLt, Bool.and_eq_true, decide_eq_true_eq] at h
    simp only [debouncedWrites, lastEvent, if_pos h.1]
    exact ih t2 p2 h.2

/-- C1: for every key and every sequence of N ≥ 1 value updates each
arriving less than the debounce delay after the previous one, the
storage backend receives exactly one write, whose payload is the last
value of the sequence. -/
theorem write_coalescing {α : Type} (delay t : Nat) (p : α)
    (rest : List (Nat × α)) (h : gapsLt delay ((t, p) :: rest) = true) :
    debouncedWrites delay ((t, p) :: rest) =
      [((lastEvent (t, p) rest).1 + delay, (lastEvent (t, p) rest).2)] :=
  debouncedWrites_of_gapsLt delay t p rest h

/-- C1 witness: `enqueue('spaces', payloadA)` then `enqueue('spaces',
payloadB)` 200 ms later with a 1000 ms delay yields exactly one write,
of `payloadB`, at 1200 ms. -/
theorem write_coalescing_witness :
    debouncedWrites 1000 [(0, "payloadA"), (200, "payloadB")] =
      [(1200, "payloadB")] :=
  write_coalescing 1000 0 "payloadA" [(200, "payloadB")] (by decide)

/-- C3 counterexample: twelve updates 500 ms apart (each below the
1000 ms debounce) produce no flush at all during the first 5000 ms
(= 5 × delay, the claimed `Dmax`); the only write happens at 6500 ms. -/
theorem bounded_write_latency_cex :
    gapsLt 1000 hotKeyTrace = true ∧
    debouncedWrites 1000 hotKeyTrace = [(6500, 12)] ∧
    (debouncedWrites 1000 hotKeyTrace).filter (fun w => decide (w.1 ≤ 5000)) = [] := by
  decide

/-- C3 amended: the debounced hook enforces no maximum-delay bound:
on any trace of same-key updates whose gaps all stay below the delay,
every write to the backend happens strictly later than any bound `B`
that the trace outlasts — repeated updates defer the flush without
limit, and the sole flush happens one delay after the final update. -/
theorem bounded_write_latency_amended {α : Type} (delay bound t : Nat) (p : α)
    (rest : List (Nat × α)) (h : gapsLt delay ((t, p) :: rest) = true)
    (hb : t + bound < (lastEvent (t, p) rest).1) :
    ∀ w ∈ debouncedWrites delay ((t, p) :: rest), t + bound < w.1 := by
  rw [debouncedWrites_of_gapsLt delay t p rest h]
  intro w hw
  simp only [List.mem_singleton] at hw
  subst hw
  omega

/-- C3 amended witness: on the 500 ms-spaced trace no write happens
within 5000 ms of the first update. -/
theorem bounded_write_latency_amended_witness :
    (6500, 12) ∈ debouncedWrites 1000 hotKeyTrace ∧ 0 + 5000 < 6500 :=
  ⟨by decide,
   bounded_write_latency_amended 1000 5000 0 1
     [(500, 2), (1000, 3), (1500, 4), (2000, 5), (2500, 6),
      (3000, 7), (3500, 8), (4000, 9), (4500, 10), (5000, 11), (5500, 12)]
     (by decide) (by decide) (6500, 12) (by decide)⟩

/-- The key-count of the queue after `add`: exactly one item for the
added key, and the counts of all other keys unchanged. -/
theorem countKey_add {α : Type} (queue : List (QueueItem α)) (key : String)
    (value : α) (priority : Priority) (k : String) :
    countKey k (LocalStorageQueue.add queue key value priority) =
      if k = key then 1 else countKey k queue := by
  unfold LocalStorageQueue.add countKey
  rw [(List.mergeSort_perm _ _).countP_eq, List.countP_append, List.countP_filter]
  by_cases hk : k = key
  · subst hk
    rw [List.countP_eq_zero.mpr]
    · simp
    · intro a _
      simp only [bne, Bool.and_eq_true, Bool.not_eq_true', Bool.not_eq_true]
      rintro ⟨h1, h2⟩
      rw [h1] at h2
      simp at h2
  · have hcongr : List.countP
        (fun a : QueueItem α => (a.key == k) && (a.key != key)) queue =
        List.countP (fun a : QueueItem α => a.key == k) queue := by
      apply List.countP_congr
      intro a _
      constructor
      · intro h
        exact (Bool.and_eq_true _ _).mp h |>.1
      · intro h
        have hak : a.key = k := by simpa using h
        have : (a.key != key) = true := by
          simp [bne, hak]
          exact hk
        simp [h, this]
    have hnew : ((⟨key, value, priority⟩ : QueueItem α).key == k) = false := by
      simp only [beq_eq_false_iff_ne, ne_eq]
      exact fun h => hk h.symm
    simp [hcongr, hnew, hk]

/-- C2: `add` keeps at most one pending write per distinct key, and a new
write for a key that already has a pending write replaces it — after
`add queue key value priority` the queue holds exactly one item for
`key`, carrying the new value and priority, counts for every other key
are untouched, and the at-most-one-per-key invariant is preserved. -/
theorem at_most_one_pending_per_key {α : Type} (queue : List (QueueItem α))
    (key : String) (value : α) (priority : Priority)
    (hinv : ∀ k, countKey k queue ≤ 1) :
    countKey key (LocalStorageQueue.add queue key value priority) = 1 ∧
    (∀ k, k ≠ key →
      countKey k (LocalStorageQueue.add queue key value priority) = countKey k queue) ∧
    (∀ k, countKey k (LocalStorageQueue.add queue key value priority) ≤ 1) ∧
    (∀ item ∈ LocalStorageQueue.add queue key value priority,
      item.key = key → item.value = value ∧ item.priority = priority) := by
  refine ⟨by rw [countKey_add]; simp, fun k hk => by rw [countKey_add, if_neg hk],
    fun k => ?_, fun item hmem hkey => ?_⟩
  · rw [countKey_add]
    by_cases hk : k = key
    · simp [hk]
    · simpa [hk] using hinv k
  · unfold LocalStorageQueue.add at hmem
    rw [(List.mergeSort_perm _ _).mem_iff, List.mem_append] at hmem
    rcases hmem with hmem | hmem
    · rw [List.mem_filter, hkey] at hmem
      simp [bne] at hmem
    · rcases List.mem_singleton.mp hmem with rfl
      exact ⟨rfl, rfl⟩

/-- C2 witness: adding a write for key `"a"` to a queue that already
holds a pending write for `"a"` leaves exactly one `"a"` item. -/
theorem at_most_one_pending_per_key_witness :
    countKey "a" (LocalStorageQueue.add [⟨"a", 1, .low⟩] "a" 2 .high) = 1 :=
  (at_most_one_pending_per_key [⟨"a", (1 : Nat), .low⟩] "a" 2 .high
    (fun _ => List.countP_le_length _)).1

/-- C4 counterexample: a queue holding a failing write for `"a"` followed
by a write for `"b"`: the `"a"` write is attempted exactly once (never
retried, no failure callback exists in the class), and the `"b"` write
is never flushed — the loop stalls on `"a"`, blocking every other key. -/
theorem storage_failure_cex :
    LocalStorageQueue.process (fun k (_ : Nat) => k != "a")
        [⟨"a", 1, .normal⟩, ⟨"b", 2, .normal⟩] = ⟨[("a", 1)], [], some "a"⟩ ∧
    ("b", 2) ∉ (LocalStorageQueue.process (fun k (_ : Nat) => k != "a")
        [⟨"a", 1, .normal⟩, ⟨"b", 2, .normal⟩]).written := by
  decide

/-- C4 amended: when a flush fails, the failing write is attempted
exactly once and then abandoned — it is never retried and no failure
callback fires (the class has none) — the writes queued before it are
flushed, and every write queued behind it (any key) is never attempted:
the processing loop stalls on the first failure. -/
theorem storage_failure_amended {α : Type} (ok : String → α → Bool)
    (good : List (QueueItem α)) (bad : QueueItem α) (rest : List (QueueItem α))
    (hgood : ∀ item ∈ good, ok item.key item.value = true)
    (hbad : ok bad.key bad.value = false) :
    LocalStorageQueue.process ok (good ++ bad :: rest) =
      ⟨good.map (fun item => (item.key, item.value)) ++ [(bad.key, bad.value)],
       good.map (fun item => (item.key, item.value)),
       some bad.key⟩ := by
  induction good with
  | nil => simp [LocalStorageQueue.process, hbad]
  | cons g gs ih =>
    have hg := hgood g (List.mem_cons_self g gs)
    have ihe := ih (fun item hm => hgood item (List.mem_cons_of_mem g hm))
    simp only [List.cons_append, LocalStorageQueue.process, hg, if_true,
      List.append_eq, ihe]
    simp

/-- C4 amended witness: with `"a"` failing, the run flushes the earlier
`"b"`, attempts `"a"` once, and never reaches `"c"`. -/
theorem storage_failure_amended_witness :
    LocalStorageQueue.process (fun k (_ : Nat) => k != "a")
        [⟨"b", 2, .high⟩, ⟨"a", 1, .normal⟩, ⟨"c", 3, .low⟩] =
      ⟨[("b", 2), ("a", 1)], [("b", 2)], some "a"⟩ :=
  storage_failure_amended (fun k (_ : Nat) => k != "a")
    [⟨"b", 2, .high⟩] ⟨"a", 1, .normal⟩ [⟨"c", 3, .low⟩] (by decide) (by decide)

/-- A `Map.set` followed by `Map.get` on the same id yields the stored
value. -/
theorem lookup_set_self (c : MessageHeightCache) (messageId : String) (h : Int) :
    (c.set messageId h).cache.lookup messageId = some h := by
  simp [MessageHeightCache.set, List.lookup_cons]

/-- When the cache holds an entry for the message's id, `estimate`
returns it through `get`, whose falsy-`||` maps a stored 0 to the
default. -/
theorem estimate_of_lookup_some (c : MessageHeightCache) (m : Message) (h : Int)
    (hl : c.cache.lookup m.id = some h) :
    c.estimate m = if h = 0 then defaultHeight else h := by
  unfold MessageHeightCache.estimate MessageHeightCache.get
  simp [MessageHeightCache.has, hl]

/-- When the cache holds no entry for the message's id, the sequential
increments of `estimate` compute exactly the specification's sum-form
estimation policy. -/
theorem estimate_of_lookup_none (c : MessageHeightCache) (m : Message)
    (hl : c.cache.lookup m.id = none) :
    c.estimate m = specContentEstimate m := by
  unfold MessageHeightCache.estimate specContentEstimate
  simp only [MessageHeightCache.has, hl, Option.isSome_none, Bool.false_eq_true,
    if_false]
  split_ifs <;> ring

/-- A message with a short text and one image part: its content-based
estimate is 200 + 300. -/
def imageMessage : Message := ⟨"i", some "hi", some [⟨"image"⟩]⟩

/-- C5 counterexample: with a recorded measured height of 0 for the id
of a message carrying an image part, `estimate` returns 200 — neither
the recorded measured height (0) nor the content-based estimate (500):
the stored 0 is falsy, and `get`'s `||` fallback is the bare default,
not the estimation policy. -/
theorem height_get_policy_cex :
    (⟨[("i", 0)]⟩ : MessageHeightCache).cache.lookup imageMessage.id = some 0 ∧
    specContentEstimate imageMessage = 500 ∧
    (⟨[("i", 0)]⟩ : MessageHeightCache).estimate imageMessage = 200 ∧
    (⟨[("i", 0)]⟩ : MessageHeightCache).estimate imageMessage ≠ 0 ∧
    (⟨[("i", 0)]⟩ : MessageHeightCache).estimate imageMessage ≠
      specContentEstimate imageMessage := by
  decide

/-- C5 amended: `estimate` is total and returns the recorded measured
height when a nonzero one is present; with no recorded height it
returns the content-based estimate of the specification's policy (base
200, +100 for length over 500, a further +200 for length over 1000,
+150 for a fenced code block marker, +300 for image parts — a never
seen item with plain short content yields the bare default); a recorded
height of exactly 0 falls through the falsy-`||` to the bare default
200 instead of the content-based estimate. -/
theorem height_get_policy (c : MessageHeightCache) (m : Message) :
    (c.cache.lookup m.id = none → c.estimate m = specContentEstimate m) ∧
    (∀ h : Int, c.cache.lookup m.id = some h → h ≠ 0 → c.estimate m = h) ∧
    (c.cache.lookup m.id = some 0 → c.estimate m = defaultHeight) := by
  refine ⟨fun hl => estimate_of_lookup_none c m hl, fun h hl hne => ?_, fun hl => ?_⟩
  · rw [estimate_of_lookup_some c m h hl, if_neg hne]
  · rw [estimate_of_lookup_some c m 0 hl, if_pos rfl]

/-- C5 amended witness: on an empty cache, the image message is
estimated at the policy value. -/
theorem height_get_policy_witness :
    (⟨[]⟩ : MessageHeightCache).estimate imageMessage =
      specContentEstimate imageMessage :=
  (height_get_policy ⟨[]⟩ imageMessage).1 rfl

/-- C6 counterexample: recording a nonsensical measured height is *not*
ignored.  Before any record the image message is estimated at 500;
recording 0 changes the answer to 200, and recording −5 makes the cache
answer −5. -/
theorem measurement_error_cex :
    (⟨[]⟩ : MessageHeightCache).estimate imageMessage = 500 ∧
    ((⟨[]⟩ : MessageHeightCache).set imageMessage.id 0).estimate imageMessage = 200 ∧
    ((⟨[]⟩ : MessageHeightCache).set imageMessage.id (-5)).estimate imageMessage
      = -5 := by
  decide

/-- C6 amended: `set` stores nonsensical heights unconditionally (no
failure is raised): after recording `h ≤ 0` the cache's answer for the
item becomes the default 200 when `h = 0` (falsy fallback) and the
negative `h` itself otherwise, regardless of what the answer was
before. -/
theorem measurement_error_amended (c : MessageHeightCache) (m : Message) (h : Int)
    (hle : h ≤ 0) :
    (c.set m.id h).estimate m = if h = 0 then defaultHeight else h :=
  estimate_of_lookup_some _ m h (lookup_set_self c m.id h)

/-- C6 amended witness: recording −7 makes the cache report −7. -/
theorem measurement_error_amended_witness :
    ((⟨[]⟩ : MessageHeightCache).set imageMessage.id (-7)).estimate imageMessage
      = -7 := by
  have := measurement_error_amended ⟨[]⟩ imageMessage (-7) (by norm_num)
  simpa using this

/-- C7 counterexample: the cache holds a measured height of 100 recorded
while the item's content was still short; the item's content has since
changed (an image part arrived — a new `contentVersion`), yet `estimate`
still returns the stale 100 instead of the recomputed content-based
estimate 500: the cache is keyed by id alone and knows nothing of
content versions. -/
theorem contentVersion_invalidation_cex :
    (⟨[("i", 100)]⟩ : MessageHeightCache).estimate imageMessage = 100 ∧
    specContentEstimate imageMessage = 500 ∧
    (⟨[("i", 100)]⟩ : MessageHeightCache).estimate imageMessage ≠
      specContentEstimate imageMessage := by
  decide

/-- C7 amended: a recorded (nonzero) measured height is never
invalidated by a content change: for any two messages sharing the id —
e.g. the same item before and after its `contentVersion` changed — the
cache answers the same stored height, never a recomputed estimate. -/
theorem stale_height_persists (c : MessageHeightCache) (m1 m2 : Message) (h : Int)
    (hid : m1.id = m2.id) (hl : c.cache.lookup m1.id = some h) (hne : h ≠ 0) :
    c.estimate m1 = h ∧ c.estimate m2 = h := by
  constructor
  · rw [estimate_of_lookup_some c m1 h hl, if_neg hne]
  · rw [estimate_of_lookup_some c m2 h (hid ▸ hl), if_neg hne]

/-- C7 amended witness: the stored 100 is answered both for the old text
form of the item and for its changed form with an image part. -/
theorem stale_height_persists_witness :
    (⟨[("i", 100)]⟩ : MessageHeightCache).estimate ⟨"i", some "hi", none⟩ = 100 ∧
    (⟨[("i", 100)]⟩ : MessageHeightCache).estimate imageMessage = 100 :=
  stale_height_persists ⟨[("i", 100)]⟩ ⟨"i", some "hi", none⟩ imageMessage 100
    rfl rfl (by decide)

/-- C10: after `set messageId h`, `get messageId` returns `h` whenever
`h` is nonzero (negative values included, returned as-is), and returns
the default 200 when `h` is exactly 0, because the zero falls through
the falsy-`||` fallback. -/
theorem get_after_set (c : MessageHeightCache) (messageId : String) (h : Int) :
    (c.set messageId h).get messageId = if h = 0 then defaultHeight else h := by
  unfold MessageHeightCache.get
  rw [lookup_set_self]

/-- Row offsets are monotone: prefix sums of Nat heights. -/
theorem prefixHeights_mono (heightOf : Nat → Nat) {i j : Nat} (hij : i ≤ j) :
    prefixHeights heightOf i ≤ prefixHeights heightOf j := by
  induction j with
  | zero =>
    have : i = 0 := Nat.le_zero.mp hij
    subst this
    exact le_rfl
  | succ j ih =>
    rcases Nat.lt_or_ge i (j + 1) with hlt | hge
    · exact (ih (Nat.lt_succ_iff.mp hlt)).trans (Nat.le_add_right _ _)
    · have : i = j + 1 := Nat.le_antisymm hij hge
      subst this
      exact le_rfl

/-- A predicate false from `i` on holds for at most `i` members of
`range count`. -/
theorem countP_range_le {p : Nat → Bool} {i : Nat} (count : Nat)
    (h : ∀ j, i ≤ j → p j = false) :
    (List.range count).countP p ≤ i := by
  induction count with
  | zero => simp
  | succ n ih =>
    rw [List.range_succ, List.countP_append]
    rcases Nat.lt_or_ge n i with hlt | hge
    · have h1 : (List.range n).countP p ≤ n :=
        (List.countP_le_length p).trans (by simp)
      have h2 : List.countP p [n] ≤ 1 :=
        (List.countP_le_length p).trans (by simp)
      omega
    · have h3 : List.countP p [n] = 0 := by
        simp [List.countP_cons, h n hge]
      omega

/-- A predicate true up to `i < count` holds for at least `i + 1`
members of `range count`. -/
theorem le_countP_range {p : Nat → Bool} {i : Nat} (count : Nat)
    (hi : i < count) (h : ∀ j, j ≤ i → p j = true) :
    i + 1 ≤ (List.range count).countP p := by
  induction count with
  | zero => omega
  | succ n ih =>
    rw [List.range_succ, List.countP_append]
    rcases Nat.lt_or_ge i n with hlt | hge
    · have := ih hlt
      omega
    · have hin : i = n := by omega
      subst hin
      have hall : (List.range i).countP p = (List.range i).length :=
        List.countP_eq_length.mpr fun a ha => h a (Nat.le_of_lt (List.mem_range.mp ha))
      have hone : List.countP p [i] = 1 := by
        simp [List.countP_cons, h i le_rfl]
      rw [hall, hone]
      simp

set_option maxRecDepth 10000 in
/-- C8 counterexample: one hundred messages, the first of which is the
currently streaming one, scrolled to the bottom: the mounted window is
indices 92–99, so the streaming item at index 0 is not mounted even
though its subscription is open — nothing keeps a streaming item in the
mount set. -/
theorem streaming_stickiness_cex :
    streamingMessages.head?.map Message.id = some "stream" ∧
    mountedIndices streamingMessages (fun _ => none) 19500 500 true (some "stream") =
      [92, 93, 94, 95, 96, 97, 98, 99] ∧
    0 ∉ mountedIndices streamingMessages (fun _ => none) 19500 500 true
      (some "stream") := by
  decide

/-- C8 amended: the mount set receives no contribution from the
streaming state — it is identical for any values of the `isStreaming`
and `currentMessageId` props — and it consists of the visible range
plus overscan: every item whose vertical span intersects the viewport is
mounted, but a streaming item outside that band is not. -/
theorem streaming_item_mounting (messages : List Message)
    (rowHeights : Nat → Option Nat) (scrollOffset viewportHeight : Nat)
    (b1 b2 : Bool) (id1 id2 : Option String) (i : Nat) (hi : i < messages.length)
    (htop : prefixHeights (getRowHeight rowHeights) i < scrollOffset + viewportHeight)
    (hbot : scrollOffset < prefixHeights (getRowHeight rowHeights) (i + 1)) :
    mountedIndices messages rowHeights scrollOffset viewportHeight b1 id1 =
      mountedIndices messages rowHeights scrollOffset viewportHeight b2 id2 ∧
    i ∈ mountedIndices messages rowHeights scrollOffset viewportHeight b1 id1 := by
  refine ⟨rfl, ?_⟩
  unfold mountedIndices windowIndices
  rw [if_neg (by omega)]
  have hstart : windowStart messages.length (getRowHeight rowHeights) scrollOffset ≤ i := by
    unfold windowStart
    apply countP_range_le
    intro j hj
    have hmono : prefixHeights (getRowHeight rowHeights) (i + 1) ≤
        prefixHeights (getRowHeight rowHeights) (j + 1) :=
      prefixHeights_mono _ (by omega)
    simp only [decide_eq_false_iff_not, not_le]
    omega
  have hstop : i ≤ windowStop messages.length (getRowHeight rowHeights)
      scrollOffset viewportHeight := by
    unfold windowStop
    have hcount := le_countP_range messages.length hi (p := fun j =>
      decide (prefixHeights (getRowHeight rowHeights) j < scrollOffset + viewportHeight))
      (fun j hj => by
        have hmono : prefixHeights (getRowHeight rowHeights) j ≤
            prefixHeights (getRowHeight rowHeights) i := prefixHeights_mono _ hj
        simp only [decide_eq_true_eq]
        omega)
    omega
  simp only []
  rw [List.mem_range'_1]
  omega

/-- C8 amended witness: at the bottom of the hundred-message list the
mount set is the same whether or not the first item is streaming, and
the visible item 98 is mounted. -/
theorem streaming_item_mounting_witness :
    mountedIndices streamingMessages (fun _ => none) 19500 500 true (some "stream") =
      mountedIndices streamingMessages (fun _ => none) 19500 500 false none ∧
    98 ∈ mountedIndices streamingMessages (fun _ => none) 19500 500 true
      (some "stream") :=
  streaming_item_mounting streamingMessages (fun _ => none) 19500 500 true false
    (some "stream") none 98 (by decide) (by decide) (by decide)

/-- C9: if the last user scroll left the viewport bottom within 100
units of the total content height, appending a message fires
`scrollToItem(newLength - 1, 'end')` — the new last item's bottom is
brought into view; if the user had scrolled farther than 100 units from
the bottom, appending fires no scroll and the position is preserved. -/
theorem following_auto_scroll (messages : List Message)
    (rowHeights : Nat → Option Nat) (near0 : Bool) (scrollOffset : Int)
    (listHeightProp : Option Nat) (newMessage : Message) :
    (totalHeightOf messages rowHeights -
        (scrollOffset + ((listHeightProp.getD 0 : Nat) : Int)) < 100 →
      autoScrollEffect
        (handleScroll messages rowHeights near0 scrollOffset listHeightProp false)
        (messages ++ [newMessage]).length = some ⟨messages.length, "end"⟩) ∧
    (100 < totalHeightOf messages rowHeights -
        (scrollOffset + ((listHeightProp.getD 0 : Nat) : Int)) →
      autoScrollEffect
        (handleScroll messages rowHeights near0 scrollOffset listHeightProp false)
        (messages ++ [newMessage]).length = none) := by
  have hh : handleScroll messages rowHeights near0 scrollOffset listHeightProp false =
      decide (totalHeightOf messages rowHeights -
        (scrollOffset + ((listHeightProp.getD 0 : Nat) : Int)) < 100) := by
    simp [handleScroll]
  constructor
  · intro hdist
    rw [hh, autoScrollEffect, List.length_append]
    simp [hdist]
  · intro hdist
    rw [hh, autoScrollEffect]
    have : ¬(totalHeightOf messages rowHeights -
        (scrollOffset + ((listHeightProp.getD 0 : Nat) : Int)) < 100) := by omega
    simp [this]

/-- C9 witness: one 200-unit message, user-scrolled to 50 units from the
bottom: appending scrolls to the new last item; the same list scrolled
150 units from the bottom: appending does not scroll. -/
theorem following_auto_scroll_witness :
    (autoScrollEffect (handleScroll [imageMessage] (fun _ => none) false 150 none false)
      ([imageMessage] ++ [imageMessage]).length = some ⟨1, "end"⟩) ∧
    (autoScrollEffect (handleScroll [imageMessage] (fun _ => none) false (-50) none false)
      ([imageMessage] ++ [imageMessage]).length = none) :=
  ⟨(following_auto_scroll [imageMessage] (fun _ => none) false 150 none
      imageMessage).1 (by decide),
   (following_auto_scroll [imageMessage] (fun _ => none) false (-50) none
      imageMessage).2 (by decide)⟩
